import Mathlib

/-!
Verification of the `plot` library (src/plot/functions.py) against its
natural-language specification.

The Python source is shallowly embedded:
* plotly figures become the `Figure` structure below; layout fields that an
  `update_layout` / `update_xaxes` / `update_yaxes` call may leave untouched
  are `Option`-valued (`none` = never set).
* Python object mutation is modelled by explicit state passing: a heap of
  figures is a `List Figure`, a figure reference is its index, and
  `go.Figure(fig)` (a copying constructor) appends a copy of the referenced
  value.
* fallible operations (engine calls, filesystem calls) return `Except`.
* `datetime.now()` is modelled as an explicit `DateTime` input to `save`.
* file-system paths follow `pathlib.PurePosixPath` semantics: a path string is
  split on `'/'`, empty and `"."` segments are dropped, and joining with an
  absolute child replaces the base path.
-/

/-! ## Figure data model (plotly `go.Figure`) -/

/-- A plotly font dict, as in `dict(family="Arial", size=26, color="black")`. -/
structure Font where
  family : String
  size : Nat
  color : String
deriving DecidableEq

/-- A plotly margin dict; `update_layout(margin=dict(r=20, t=20, b=10))`
only touches the fields it names, so each side is `Option`-valued. -/
structure Margin where
  l : Option Nat
  r : Option Nat
  t : Option Nat
  b : Option Nat
deriving DecidableEq

/-- The axis properties touched by `style_to_matplotlib`'s
`update_xaxes` / `update_yaxes` calls. -/
structure Axis where
  showline : Option Bool
  showticklabels : Option Bool
  linecolor : Option String
  linewidth : Option ℚ
  ticks : Option String
  tickfont : Option Font
  mirror : Option String
  tickwidth : Option ℚ
  tickcolor : Option String
deriving DecidableEq

/-- The `scene=dict(xaxis_title=..., yaxis_title=..., zaxis_title=...)`
layout entry used by `surface`. -/
structure Scene where
  xaxis_title : Option String
  yaxis_title : Option String
  zaxis_title : Option String
deriving DecidableEq

/-- Plotly surface-trace contour settings, as set by `surface`'s
`update_traces(contours_z=dict(show=True, usecolormap=True,
highlightcolor="limegreen", project_z=True))`. -/
structure ContoursZ where
  contoursShow : Bool
  usecolormap : Bool
  highlightcolor : String
  project_z : Bool
deriving DecidableEq

/-- Figure traces. `scatter2` covers `px.line` / `px.scatter` traces (the
`mode` field distinguishes lines from markers), `scatter3` covers
`px.scatter_3d` traces, `surf` covers `go.Surface` traces. -/
inductive Trace where
  | scatter2 (xs ys : List ℚ) (label : String) (mode : String)
      (color size symbol : Option (List ℚ)) (xerr yerr : Option (List ℚ))
  | scatter3 (xs ys zs : List ℚ) (label : String)
      (color size symbol : Option (List ℚ)) (xerr yerr zerr : Option (List ℚ))
  | surf (xs ys : List ℚ) (z : List (List ℚ)) (contours_z : Option ContoursZ)
deriving DecidableEq

/-- The layout fields the library reads or writes.  `xaxes`/`yaxes` are lists
because `update_xaxes`/`update_yaxes` restyle every axis of the figure. -/
structure Layout where
  font : Option Font
  plot_bgcolor : Option String
  width : Option Nat
  height : Option Nat
  margin : Margin
  title : Option String
  template : String
  scene : Scene
  xaxes : List Axis
  yaxes : List Axis
deriving DecidableEq

/-- A plotly figure: trace data plus layout. -/
structure Figure where
  data : List Trace
  layout : Layout
deriving DecidableEq

/-- An axis with no properties set. -/
def defAxis : Axis :=
  ⟨none, none, none, none, none, none, none, none, none⟩

/-- Default layout of a freshly built figure with the given title/template. -/
def defLayout (title : Option String) (template : String) : Layout :=
  ⟨none, none, none, none, ⟨none, none, none, none⟩, title, template,
    ⟨none, none, none⟩, [defAxis], [defAxis]⟩

/-- An empty figure (used as the default value of heap lookups). -/
def emptyFigure : Figure :=
  ⟨[], defLayout none "plotly"⟩

/-! ## The style adapter `style_to_matplotlib` (functions.py lines 16-61) -/

/-- The `font_dict` of `style_to_matplotlib`:
`dict(family="Arial", size=26, color="black")`. -/
def styleFont : Font := ⟨"Arial", 26, "black"⟩

/-- The `fig_styled.update_layout(...)` call: sets font, background, size and
the named margin sides, leaving every other layout field as it was. -/
def updateLayoutStyle (fig : Figure) : Figure :=
  { fig with layout := { fig.layout with
      font := some styleFont
      plot_bgcolor := some "white"
      width := some 850
      height := some 700
      margin := { fig.layout.margin with r := some 20, t := some 20, b := some 10 } } }

/-- Axis restyling performed by `fig_styled.update_yaxes(...)`. -/
def styleAxisY (ax : Axis) : Axis :=
  { ax with
      showline := some true
      linecolor := some "black"
      linewidth := some (2.4 : ℚ)
      ticks := some "outside"
      tickfont := some styleFont
      mirror := some "allticks"
      tickwidth := some (2.4 : ℚ)
      tickcolor := some "black" }

/-- Axis restyling performed by `fig_styled.update_xaxes(...)`; same fields as
the y-axis call plus `showticklabels=True`. -/
def styleAxisX (ax : Axis) : Axis :=
  { ax with
      showline := some true
      showticklabels := some true
      linecolor := some "black"
      linewidth := some (2.4 : ℚ)
      ticks := some "outside"
      tickfont := some styleFont
      mirror := some "allticks"
      tickwidth := some (2.4 : ℚ)
      tickcolor := some "black" }

/-- The `update_yaxes` call, applied to every y axis of the figure. -/
def updateYaxesStyle (fig : Figure) : Figure :=
  { fig with layout := { fig.layout with yaxes := fig.layout.yaxes.map styleAxisY } }

/-- The `update_xaxes` call, applied to every x axis of the figure. -/
def updateXaxesStyle (fig : Figure) : Figure :=
  { fig with layout := { fig.layout with xaxes := fig.layout.xaxes.map styleAxisX } }

/-- The net effect of the three update calls of `style_to_matplotlib` on the
copied figure's value (`update_layout`, then `update_yaxes`, then
`update_xaxes`). -/
def styleTransform (fig : Figure) : Figure :=
  updateXaxesStyle (updateYaxesStyle (updateLayoutStyle fig))

/-- The copying constructor `go.Figure(fig)`: appends to the heap a fresh
figure holding a copy of the referenced figure's value and returns the new
heap together with the new reference. -/
def goFigureCopy (h : List Figure) (r : Nat) : List Figure × Nat :=
  (h ++ [h.getD r emptyFigure], h.length)

/-- `style_to_matplotlib(fig)`: `fig_styled = go.Figure(fig)` then the three
in-place update calls on `fig_styled`; returns the updated heap and the
reference to `fig_styled`. -/
def style_to_matplotlib (h : List Figure) (r : Nat) : List Figure × Nat :=
  let h1 := (goFigureCopy h r).1
  let rs := (goFigureCopy h r).2
  (h1.set rs (styleTransform (h1.getD rs emptyFigure)), rs)

/-! ### Helper lemmas for heap reasoning -/

theorem style_heap_unfold (h : List Figure) (r : Nat) :
    style_to_matplotlib h r =
      ((h ++ [h.getD r emptyFigure]).set h.length
        (styleTransform ((h ++ [h.getD r emptyFigure]).getD h.length emptyFigure)),
       h.length) := rfl

theorem getD_append_left {α : Type} (l l' : List α) (d : α) (i : Nat)
    (hi : i < l.length) : (l ++ l').getD i d = l.getD i d := by
  simp [List.getD, List.getElem?_append_left hi]

theorem getD_concat_length {α : Type} (l : List α) (x d : α) :
    (l ++ [x]).getD l.length d = x := by
  simp [List.getD]

theorem getD_set_ne {α : Type} (l : List α) (i j : Nat) (x d : α) (hij : i ≠ j) :
    (l.set i x).getD j d = l.getD j d := by
  simp [List.getD, List.getElem?_set_ne hij]

theorem getD_set_self {α : Type} (l : List α) (i : Nat) (x d : α)
    (hi : i < l.length) : (l.set i x).getD i d = x := by
  simp [List.getD, List.getElem?_set_self, hi]

/-- C1 helper: the heap cell of the input figure after a
`style_to_matplotlib` call. -/
theorem style_heap_input_cell (h : List Figure) (r : Nat) (hr : r < h.length) :
    ((style_to_matplotlib h r).1).getD r emptyFigure = h.getD r emptyFigure := by
  rw [style_heap_unfold]
  rw [getD_set_ne _ _ _ _ _ (Nat.ne_of_gt hr)]
  exact getD_append_left h _ emptyFigure r hr

/-- C1 helper: the heap cell of the returned figure after a
`style_to_matplotlib` call. -/
theorem style_heap_output_cell (h : List Figure) (r : Nat) :
    ((style_to_matplotlib h r).1).getD (style_to_matplotlib h r).2 emptyFigure
      = styleTransform (h.getD r emptyFigure) := by
  rw [style_heap_unfold]
  have hlen : h.length < (h ++ [h.getD r emptyFigure]).length := by
    simp
  rw [getD_set_self _ _ _ _ hlen, getD_concat_length]

/-- C1: `style_to_matplotlib` returns a fresh figure (a reference distinct
from its argument) whose value is the styled copy of the argument's value,
and the argument's own heap cell is unchanged by the call
(copy-then-mutate, never mutation of the argument). -/
theorem style_to_matplotlib_copy_semantics (h : List Figure) (r : Nat)
    (hr : r < h.length) :
    (style_to_matplotlib h r).2 ≠ r ∧
    ((style_to_matplotlib h r).1).getD r emptyFigure = h.getD r emptyFigure ∧
    ((style_to_matplotlib h r).1).getD (style_to_matplotlib h r).2 emptyFigure
      = styleTransform (h.getD r emptyFigure) := by
  refine ⟨?_, style_heap_input_cell h r hr, style_heap_output_cell h r⟩
  rw [style_heap_unfold]
  exact Nat.ne_of_gt hr

/-- C1 witness: a one-figure heap; the call leaves cell 0 untouched and
returns reference 1 holding the styled copy. -/
theorem style_to_matplotlib_copy_semantics_witness :
    0 < ([emptyFigure] : List Figure).length ∧
    ((style_to_matplotlib [emptyFigure] 0).2 ≠ 0 ∧
    ((style_to_matplotlib [emptyFigure] 0).1).getD 0 emptyFigure
      = ([emptyFigure] : List Figure).getD 0 emptyFigure ∧
    ((style_to_matplotlib [emptyFigure] 0).1).getD
        (style_to_matplotlib [emptyFigure] 0).2 emptyFigure
      = styleTransform (([emptyFigure] : List Figure).getD 0 emptyFigure)) :=
  ⟨by decide, style_to_matplotlib_copy_semantics [emptyFigure] 0 (by decide)⟩

theorem styleAxisX_idem : styleAxisX ∘ styleAxisX = styleAxisX :=
  funext fun _ => rfl

theorem styleAxisY_idem : styleAxisY ∘ styleAxisY = styleAxisY :=
  funext fun _ => rfl

/-- C2 helper: the value-level restyling is idempotent (it writes fixed
constants into the cosmetic fields and leaves everything else alone). -/
theorem styleTransform_idempotent (fig : Figure) :
    styleTransform (styleTransform fig) = styleTransform fig := by
  simp only [styleTransform, updateLayoutStyle, updateYaxesStyle, updateXaxesStyle,
    List.map_map, styleAxisX_idem, styleAxisY_idem]

/-- C2: styling an already-styled figure yields the same cosmetic settings:
value-level idempotence of the restyling, and at the heap level the figure
obtained by a second `style_to_matplotlib` call on the result of a first call
holds the same value as the first call's result. -/
theorem style_to_matplotlib_idempotent (h : List Figure) (r : Nat) :
    (∀ fig : Figure, styleTransform (styleTransform fig) = styleTransform fig) ∧
    ((style_to_matplotlib (style_to_matplotlib h r).1 (style_to_matplotlib h r).2).1).getD
        (style_to_matplotlib (style_to_matplotlib h r).1 (style_to_matplotlib h r).2).2
        emptyFigure
      = ((style_to_matplotlib h r).1).getD (style_to_matplotlib h r).2 emptyFigure := by
  refine ⟨styleTransform_idempotent, ?_⟩
  simp only [style_heap_output_cell, styleTransform_idempotent]

/-! ## C9: fixed cosmetic constants of the styled figure -/

/-- Decidable check that an x axis carries exactly the constants written by
`update_xaxes` in `style_to_matplotlib`. -/
def axisStyledX (ax : Axis) : Bool :=
  decide (ax.showline = some true ∧ ax.showticklabels = some true ∧
    ax.linecolor = some "black" ∧ ax.linewidth = some (2.4 : ℚ) ∧
    ax.ticks = some "outside" ∧ ax.tickfont = some styleFont ∧
    ax.mirror = some "allticks" ∧ ax.tickwidth = some (2.4 : ℚ) ∧
    ax.tickcolor = some "black")

/-- Decidable check that a y axis carries exactly the constants written by
`update_yaxes` in `style_to_matplotlib`. -/
def axisStyledY (ax : Axis) : Bool :=
  decide (ax.showline = some true ∧ ax.linecolor = some "black" ∧
    ax.linewidth = some (2.4 : ℚ) ∧ ax.ticks = some "outside" ∧
    ax.tickfont = some styleFont ∧ ax.mirror = some "allticks" ∧
    ax.tickwidth = some (2.4 : ℚ) ∧ ax.tickcolor = some "black")

/-- C9: whatever the input figure's prior styling, the styled value has the
fixed constants: Arial/26/black font, white plot background, 850x700 pixels,
margins r=20 t=20 b=10, and on every x and y axis the fixed line/tick
constants (showline, black lines and ticks of width 2.4, outside ticks,
mirror "allticks").  Since these are fixed constants, any two styled outputs
agree on all of these layout fields. -/
theorem styleTransform_constants (fig : Figure) :
    (styleTransform fig).layout.font = some styleFont ∧
    (styleTransform fig).layout.plot_bgcolor = some "white" ∧
    (styleTransform fig).layout.width = some 850 ∧
    (styleTransform fig).layout.height = some 700 ∧
    (styleTransform fig).layout.margin.r = some 20 ∧
    (styleTransform fig).layout.margin.t = some 20 ∧
    (styleTransform fig).layout.margin.b = some 10 ∧
    (styleTransform fig).layout.xaxes.all axisStyledX = true ∧
    (styleTransform fig).layout.yaxes.all axisStyledY = true := by
  obtain ⟨data, font, bg, w, ht, ⟨ml, mr, mt, mb⟩, title, tmpl, scene, xs, ys⟩ := fig
  refine ⟨rfl, rfl, rfl, rfl, rfl, rfl, rfl, ?_, ?_⟩
  · simp only [styleTransform, updateLayoutStyle, updateYaxesStyle, updateXaxesStyle,
      List.all_map, List.all_eq_true]
    intro ax _
    cases ax
    simp [Function.comp, styleAxisX, axisStyledX]
  · simp only [styleTransform, updateLayoutStyle, updateYaxesStyle, updateXaxesStyle,
      List.all_map, List.all_eq_true]
    intro ax _
    cases ax
    simp [Function.comp, styleAxisY, axisStyledY]

/-! ## The figure builders (functions.py lines 64-281)

The charting engine (`plotly.express` / `go`) and the tabular library
(`pandas`) are external collaborators; they are modelled just far enough to
have the error behaviour the builders can observe: a referenced column may be
missing, or the referenced columns may have mismatched row counts.  The
builders themselves are transcribed from the source: they compute nothing,
forward their arguments, optionally call `fig.show()`, and return the figure.
-/

/-- A pandas dataframe: named numeric columns. -/
structure DataFrame where
  cols : List (String × List ℚ)
deriving DecidableEq

/-- Column access, `df[name]`. -/
def getCol (df : DataFrame) (name : String) : Option (List ℚ) :=
  match df.cols.find? (fun c => c.1 = name) with
  | some c => some c.2
  | none => none

/-- Errors raised by the underlying tabular/charting library. -/
inductive EngineError where
  | missingColumn (name : String)
  | lengthMismatch
deriving DecidableEq

/-- The column names a builder call references (skipping `None` arguments). -/
def refCols (x : String) (y : List String) (opts : List (Option String)) :
    List String :=
  x :: y ++ opts.filterMap id

/-- The first referenced column missing from the dataframe, if any. -/
def firstMissing (df : DataFrame) (names : List String) : Option String :=
  names.find? (fun n => (getCol df n).isNone)

/-- Whether all referenced columns have the same row count. -/
def sameLengths (df : DataFrame) (names : List String) : Bool :=
  let ls := names.filterMap (getCol df)
  ls.all (fun c => c.length = (ls.headD []).length)

/-- Column contents with a default (only used after presence was checked). -/
def colD (df : DataFrame) (name : String) : List ℚ :=
  (getCol df name).getD []

def optColD (df : DataFrame) : Option String → Option (List ℚ)
  | some n => some (colD df n)
  | none => none

/-- `px.line(data_frame=df, x=x, y=y, title=title, error_x=x_error,
error_y=y_error, markers=markers, facet_col=fc, facet_row=fr,
template=template)`: validates the referenced columns, then builds one line
trace per `y` column. -/
def pxLine (df : DataFrame) (x : String) (y : List String)
    (title : Option String) (x_error y_error : Option String) (markers : Bool)
    (fc fr : Option String) (template : String) : Except EngineError Figure :=
  let names := refCols x y [fc, fr, x_error, y_error]
  match firstMissing df names with
  | some n => .error (.missingColumn n)
  | none =>
    if sameLengths df names then
      .ok ⟨y.map (fun yc =>
            Trace.scatter2 (colD df x) (colD df yc) yc
              (if markers then "lines+markers" else "lines") none none none
              (optColD df x_error) (optColD df y_error)),
          defLayout title template⟩
    else .error .lengthMismatch

/-- `px.scatter(data_frame=df, x=x, y=y, color=c, symbol=m, size=s,
title=title, error_x=x_error, error_y=y_error, facet_col=fc,
facet_row=fr)`. -/
def pxScatter (df : DataFrame) (x : String) (y : List String)
    (c s m : Option String) (title : Option String)
    (x_error y_error : Option String) (fc fr : Option String) :
    Except EngineError Figure :=
  let names := refCols x y [c, s, m, fc, fr, x_error, y_error]
  match firstMissing df names with
  | some n => .error (.missingColumn n)
  | none =>
    if sameLengths df names then
      .ok ⟨y.map (fun yc =>
            Trace.scatter2 (colD df x) (colD df yc) yc "markers"
              (optColD df c) (optColD df s) (optColD df m)
              (optColD df x_error) (optColD df y_error)),
          defLayout title "plotly"⟩
    else .error .lengthMismatch

/-- `px.scatter_3d(data_frame=df, x=x, y=y, z=z, color=c, symbol=m, size=s,
title=title, error_x=x_error, error_y=y_error, error_z=z_error)`. -/
def pxScatter3 (df : DataFrame) (x y : String) (z : List String)
    (c s m : Option String) (title : Option String)
    (x_error y_error z_error : Option String) : Except EngineError Figure :=
  let names := refCols x (y :: z) [c, s, m, x_error, y_error, z_error]
  match firstMissing df names with
  | some n => .error (.missingColumn n)
  | none =>
    if sameLengths df names then
      .ok ⟨z.map (fun zc =>
            Trace.scatter3 (colD df x) (colD df y) (colD df zc) zc
              (optColD df c) (optColD df s) (optColD df m)
              (optColD df x_error) (optColD df y_error) (optColD df z_error)),
          defLayout title "plotly"⟩
    else .error .lengthMismatch

/-- `go.Figure(data=[go.Surface(z=z, x=x, y=y)])`: plain construction; the
engine performs no shape validation here, so it never fails on these typed
inputs. -/
def goSurfaceFigure (x y : List ℚ) (z : List (List ℚ)) :
    Except EngineError Figure :=
  .ok ⟨[Trace.surf x y z none], defLayout none "plotly"⟩

/-- The contour settings of `surface`'s `update_traces` call. -/
def surfContours : ContoursZ := ⟨true, true, "limegreen", true⟩

/-- `fig.update_traces(contours_z=dict(show=True, usecolormap=True,
highlightcolor="limegreen", project_z=True))`: applies to every trace;
only surface traces carry the property. -/
def updateTracesContours (fig : Figure) : Figure :=
  { fig with data := fig.data.map (fun t =>
      match t with
      | .surf xs ys z _ => .surf xs ys z (some surfContours)
      | t => t) }

/-- `fig.update_layout(title=title, scene=dict(xaxis_title=title_x,
yaxis_title=title_y, zaxis_title=title_z))`. -/
def updateLayoutScene (title tx ty tz : Option String) (fig : Figure) :
    Figure :=
  { fig with layout := { fig.layout with title := title, scene := ⟨tx, ty, tz⟩ } }

/-- Observable side effects of a builder call. -/
inductive Effect where
  | display (fig : Figure)
deriving DecidableEq

/-- `line(df, x, y, fc, fr, x_error, y_error, markers, title, show, dark)`
(functions.py lines 64-121): chooses the template, forwards everything to
`px.line`, shows the figure when the flag is set, and returns it. -/
def lineTemplate (dark : Bool) : String :=
  if dark then "plotly_dark" else "plotly"

def line (df : DataFrame) (x : String) (y : List String)
    (fc fr x_error y_error : Option String) (markers : Bool)
    (title : Option String) (showFlag dark : Bool) :
    Except EngineError (Figure × List Effect) :=
  match pxLine df x y title x_error y_error markers fc fr (lineTemplate dark) with
  | .error e => .error e
  | .ok fig => .ok (fig, if showFlag then [Effect.display fig] else [])

/-- `scatter(df, x, y, c, s, m, fc, fr, x_error, y_error, title, show)`
(functions.py lines 124-183). -/
def scatter (df : DataFrame) (x : String) (y : List String)
    (c s m fc fr x_error y_error : Option String) (title : Option String)
    (showFlag : Bool) : Except EngineError (Figure × List Effect) :=
  match pxScatter df x y c s m title x_error y_error fc fr with
  | .error e => .error e
  | .ok fig => .ok (fig, if showFlag then [Effect.display fig] else [])

/-- `scatter3(df, x, y, z, c, s, m, x_error, y_error, z_error, title, show)`
(functions.py lines 186-237). -/
def scatter3 (df : DataFrame) (x y : String) (z : List String)
    (c s m x_error y_error z_error : Option String) (title : Option String)
    (showFlag : Bool) : Except EngineError (Figure × List Effect) :=
  match pxScatter3 df x y z c s m title x_error y_error z_error with
  | .error e => .error e
  | .ok fig => .ok (fig, if showFlag then [Effect.display fig] else [])

/-- `surface(x, y, z, title, title_x, title_y, title_z, show)`
(functions.py lines 240-281): builds the surface figure, enables contour
projection, sets the titles, shows the figure when the flag is set, and
returns it. -/
def surface (x y : List ℚ) (z : List (List ℚ))
    (title tx ty tz : Option String) (showFlag : Bool) :
    Except EngineError (Figure × List Effect) :=
  match goSurfaceFigure x y z with
  | .error e => .error e
  | .ok fig0 =>
    let fig := updateLayoutScene title tx ty tz (updateTracesContours fig0)
    .ok (fig, if showFlag then [Effect.display fig] else [])

/-- C6: no builder validates its inputs itself; a call fails with error `e`
exactly when the underlying engine call it forwards to fails with the same
error `e` (no pre-validation, translation, catching, or recovery in the
wrapper).  For `surface` the engine constructor never fails, and neither
does the wrapper. -/
theorem builders_propagate_engine_errors :
    (∀ df x y fc fr xe ye mk title sf dark e,
      line df x y fc fr xe ye mk title sf dark = .error e ↔
        pxLine df x y title xe ye mk fc fr (lineTemplate dark) = .error e) ∧
    (∀ df x y c s m fc fr xe ye title sf e,
      scatter df x y c s m fc fr xe ye title sf = .error e ↔
        pxScatter df x y c s m title xe ye fc fr = .error e) ∧
    (∀ df x y z c s m xe ye ze title sf e,
      scatter3 df x y z c s m xe ye ze title sf = .error e ↔
        pxScatter3 df x y z c s m title xe ye ze = .error e) ∧
    (∀ x y z title tx ty tz sf e,
      surface x y z title tx ty tz sf = .error e ↔
        goSurfaceFigure x y z = .error e) := by
  refine ⟨?_, ?_, ?_, ?_⟩
  · intro df x y fc fr xe ye mk title sf dark e
    unfold line
    cases h : pxLine df x y title xe ye mk fc fr (lineTemplate dark) <;> simp
  · intro df x y c s m fc fr xe ye title sf e
    unfold scatter
    cases pxScatter df x y c s m title xe ye fc fr <;> simp
  · intro df x y z c s m xe ye ze title sf e
    unfold scatter3
    cases pxScatter3 df x y z c s m title xe ye ze <;> simp
  · intro x y z title tx ty tz sf e
    simp [surface, goSurfaceFigure]

/-- C7: each builder returns the constructed figure object, and its only
display side effect is showing that figure, present if and only if the
display flag is true. -/
theorem builders_return_figure_and_display_iff :
    (∀ df x y fc fr xe ye mk title sf dark fig,
      pxLine df x y title xe ye mk fc fr (lineTemplate dark) = .ok fig →
      line df x y fc fr xe ye mk title sf dark =
        .ok (fig, if sf then [Effect.display fig] else [])) ∧
    (∀ df x y c s m fc fr xe ye title sf fig,
      pxScatter df x y c s m title xe ye fc fr = .ok fig →
      scatter df x y c s m fc fr xe ye title sf =
        .ok (fig, if sf then [Effect.display fig] else [])) ∧
    (∀ df x y z c s m xe ye ze title sf fig,
      pxScatter3 df x y z c s m title xe ye ze = .ok fig →
      scatter3 df x y z c s m xe ye ze title sf =
        .ok (fig, if sf then [Effect.display fig] else [])) ∧
    (∀ x y z title tx ty tz sf fig0,
      goSurfaceFigure x y z = .ok fig0 →
      surface x y z title tx ty tz sf =
        .ok (updateLayoutScene title tx ty tz (updateTracesContours fig0),
          if sf then
            [Effect.display (updateLayoutScene title tx ty tz
              (updateTracesContours fig0))]
          else [])) := by
  refine ⟨?_, ?_, ?_, ?_⟩
  · intro df x y fc fr xe ye mk title sf dark fig h
    unfold line
    rw [h]
  · intro df x y c s m fc fr xe ye title sf fig h
    unfold scatter
    rw [h]
  · intro df x y z c s m xe ye ze title sf fig h
    unfold scatter3
    rw [h]
  · intro x y z title tx ty tz sf fig0 h
    unfold surface
    rw [h]

/-- A concrete dataframe with columns `x = [1,2,3]`, `y = [1,2,3]` (the
spec's concrete line-builder scenario). -/
def dfW : DataFrame := ⟨[("x", [1, 2, 3]), ("y", [1, 2, 3])]⟩

/-- The figure `px.line` constructs from `dfW` with `x="x", y="y"`. -/
def figW : Figure :=
  ((pxLine dfW "x" ["y"] none none none false none none "plotly").toOption).getD
    emptyFigure

/-- C7 witness: on the concrete dataframe, `line` with the display flag set
returns the engine's figure together with exactly one display effect for it. -/
theorem builders_return_figure_and_display_iff_witness :
    line dfW "x" ["y"] none none none none false none true false =
      .ok (figW, [Effect.display figW]) :=
  builders_return_figure_and_display_iff.1 dfW "x" ["y"] none none none none
    false none true false figW rfl

/-! ## Timestamps (`datetime.now().strftime("%Y-%m-%d_%H-%M-%S-%f")`)

`datetime.now()` is an external input, modelled as an explicit `DateTime`
argument; `strftime` is implemented over the actual format string.  Digits
use fixed-width zero-padded decimal rendering, which matches `strftime` on
every value a real clock produces (the validity predicate below). -/

structure DateTime where
  year : Nat
  month : Nat
  day : Nat
  hour : Nat
  minute : Nat
  second : Nat
  micro : Nat
deriving DecidableEq

/-- Field ranges of a real `datetime.now()` value. -/
def validDT (dt : DateTime) : Prop :=
  1000 ≤ dt.year ∧ dt.year ≤ 9999 ∧ 1 ≤ dt.month ∧ dt.month ≤ 12 ∧
  1 ≤ dt.day ∧ dt.day ≤ 31 ∧ dt.hour ≤ 23 ∧ dt.minute ≤ 59 ∧
  dt.second ≤ 59 ∧ dt.micro ≤ 999999

instance (dt : DateTime) : Decidable (validDT dt) := by
  unfold validDT; infer_instance

/-- The decimal digit character for `d % 10`. -/
def digitCh (d : Nat) : Char := Char.ofNat (48 + d % 10)

/-- Two-digit zero-padded decimal (`%m`, `%d`, `%H`, `%M`, `%S`). -/
def pad2 (n : Nat) : List Char := [digitCh (n / 10), digitCh n]

/-- Four-digit zero-padded decimal (`%Y` for real calendar years). -/
def pad4 (n : Nat) : List Char :=
  [digitCh (n / 1000), digitCh (n / 100), digitCh (n / 10), digitCh n]

/-- Six-digit zero-padded decimal (`%f`, microseconds). -/
def pad6 (n : Nat) : List Char :=
  [digitCh (n / 100000), digitCh (n / 10000), digitCh (n / 1000),
   digitCh (n / 100), digitCh (n / 10), digitCh n]

/-- One `strftime` directive. -/
def strfDirective (dt : DateTime) (c : Char) : List Char :=
  if c = 'Y' then pad4 dt.year
  else if c = 'm' then pad2 dt.month
  else if c = 'd' then pad2 dt.day
  else if c = 'H' then pad2 dt.hour
  else if c = 'M' then pad2 dt.minute
  else if c = 'S' then pad2 dt.second
  else if c = 'f' then pad6 dt.micro
  else [c]

/-- `strftime` over a format character list. -/
def strftime (dt : DateTime) : List Char → List Char
  | [] => []
  | '%' :: c :: rest => strfDirective dt c ++ strftime dt rest
  | c :: rest => c :: strftime dt rest

/-- The format string of `save`: `"%Y-%m-%d_%H-%M-%S-%f"`. -/
def tsFormat : List Char :=
  ['%', 'Y', '-', '%', 'm', '-', '%', 'd', '_', '%', 'H', '-', '%', 'M',
   '-', '%', 'S', '-', '%', 'f']

/-- The timestamp `save` embeds in the filename. -/
def fmtTimestamp (dt : DateTime) : List Char := strftime dt tsFormat

theorem fmtTimestamp_eq (dt : DateTime) :
    fmtTimestamp dt =
      pad4 dt.year ++ '-' :: (pad2 dt.month ++ '-' :: (pad2 dt.day ++
        '_' :: (pad2 dt.hour ++ '-' :: (pad2 dt.minute ++ '-' ::
          (pad2 dt.second ++ '-' :: pad6 dt.micro))))) := rfl

theorem fmtTimestamp_length (dt : DateTime) : (fmtTimestamp dt).length = 26 := by
  rw [fmtTimestamp_eq]
  simp [pad2, pad4, pad6]

/-! ### Injectivity of the timestamp on valid instants -/

def digitVal (c : Char) : Nat := c.toNat - 48

def isDigitCh (c : Char) : Bool := decide (48 ≤ c.toNat ∧ c.toNat ≤ 57)

/-- Reads all decimal digits of a character list into an accumulator,
skipping non-digits. -/
def decodeDigits : List Char → Nat → Nat
  | [], acc => acc
  | c :: rest, acc =>
    decodeDigits rest (if isDigitCh c then acc * 10 + digitVal c else acc)

/-- All timestamp fields packed into one number, most significant first. -/
def tsKey (dt : DateTime) : Nat :=
  (((((dt.year * 100 + dt.month) * 100 + dt.day) * 100 + dt.hour) * 100 +
    dt.minute) * 100 + dt.second) * 1000000 + dt.micro

theorem digitVal_digitCh (d : Nat) : digitVal (digitCh d) = d % 10 := by
  have h10 : d % 10 < 10 := Nat.mod_lt _ (by omega)
  have : ∀ m, m < 10 → digitVal (digitCh m) = m := by decide
  have h2 : digitCh d = digitCh (d % 10) := by
    unfold digitCh; congr 1; omega
  rw [h2, this _ h10]

theorem isDigitCh_digitCh (d : Nat) : isDigitCh (digitCh d) = true := by
  have h10 : d % 10 < 10 := Nat.mod_lt _ (by omega)
  have : ∀ m, m < 10 → isDigitCh (digitCh m) = true := by decide
  have h2 : digitCh d = digitCh (d % 10) := by
    unfold digitCh; congr 1; omega
  rw [h2, this _ h10]

theorem decodeDigits_digit (c : Char) (rest : List Char) (acc : Nat)
    (h : isDigitCh c = true) :
    decodeDigits (c :: rest) acc = decodeDigits rest (acc * 10 + digitVal c) := by
  simp [decodeDigits, h]

theorem decodeDigits_pad2 (n : Nat) (rest : List Char) (acc : Nat)
    (hn : n < 100) :
    decodeDigits (pad2 n ++ rest) acc = decodeDigits rest (acc * 100 + n) := by
  simp only [pad2, List.cons_append, List.nil_append,
    decodeDigits_digit _ _ _ (isDigitCh_digitCh _), digitVal_digitCh]
  congr 1
  omega

theorem decodeDigits_pad4 (n : Nat) (rest : List Char) (acc : Nat)
    (hn : n < 10000) :
    decodeDigits (pad4 n ++ rest) acc = decodeDigits rest (acc * 10000 + n) := by
  simp only [pad4, List.cons_append, List.nil_append,
    decodeDigits_digit _ _ _ (isDigitCh_digitCh _), digitVal_digitCh]
  congr 1
  omega

theorem decodeDigits_pad6 (n : Nat) (rest : List Char) (acc : Nat)
    (hn : n < 1000000) :
    decodeDigits (pad6 n ++ rest) acc = decodeDigits rest (acc * 1000000 + n) := by
  simp only [pad6, List.cons_append, List.nil_append,
    decodeDigits_digit _ _ _ (isDigitCh_digitCh _), digitVal_digitCh]
  congr 1
  omega

theorem decodeDigits_sep (c : Char) (rest : List Char) (acc : Nat)
    (h : isDigitCh c = false) :
    decodeDigits (c :: rest) acc = decodeDigits rest acc := by
  simp [decodeDigits, h]

theorem decodeDigits_fmtTimestamp (dt : DateTime) (h : validDT dt) :
    decodeDigits (fmtTimestamp dt) 0 = tsKey dt := by
  obtain ⟨h1, h2, h3, h4, h5, h6, h7, h8, h9, h10⟩ := h
  rw [fmtTimestamp_eq]
  rw [decodeDigits_pad4 _ _ _ (by omega),
    decodeDigits_sep _ _ _ (by decide),
    decodeDigits_pad2 _ _ _ (by omega),
    decodeDigits_sep _ _ _ (by decide),
    decodeDigits_pad2 _ _ _ (by omega),
    decodeDigits_sep _ _ _ (by decide),
    decodeDigits_pad2 _ _ _ (by omega),
    decodeDigits_sep _ _ _ (by decide),
    decodeDigits_pad2 _ _ _ (by omega),
    decodeDigits_sep _ _ _ (by decide),
    decodeDigits_pad2 _ _ _ (by omega),
    decodeDigits_sep _ _ _ (by decide)]
  have : ∀ m acc, m < 1000000 → decodeDigits (pad6 m) acc = acc * 1000000 + m := by
    intro m acc hm
    have := decodeDigits_pad6 m [] acc hm
    simpa [decodeDigits] using this
  rw [this _ _ (by omega)]
  simp [tsKey]

theorem fmtTimestamp_injOn (a b : DateTime) (ha : validDT a) (hb : validDT b)
    (h : fmtTimestamp a = fmtTimestamp b) : a = b := by
  have hk : tsKey a = tsKey b := by
    rw [← decodeDigits_fmtTimestamp a ha, ← decodeDigits_fmtTimestamp b hb, h]
  obtain ⟨a1, a2, a3, a4, a5, a6, a7, a8, a9, a10⟩ := ha
  obtain ⟨b1, b2, b3, b4, b5, b6, b7, b8, b9, b10⟩ := hb
  unfold tsKey at hk
  obtain ⟨ay, amo, ad, ah, ami, as, au⟩ := a
  obtain ⟨by', bmo, bd, bh, bmi, bs, bu⟩ := b
  simp only at hk a1 a2 a3 a4 a5 a6 a7 a8 a9 a10 b1 b2 b3 b4 b5 b6 b7 b8 b9 b10
  have : ay = by' ∧ amo = bmo ∧ ad = bd ∧ ah = bh ∧ ami = bmi ∧ as = bs ∧
      au = bu := by omega
  obtain ⟨e1, e2, e3, e4, e5, e6, e7⟩ := this
  subst e1; subst e2; subst e3; subst e4; subst e5; subst e6; subst e7
  rfl

/-! ## Paths (`pathlib.PurePosixPath` semantics)

Path strings are character lists.  Parsing splits on `'/'` and drops empty
and `"."` segments (pathlib collapses spurious slashes and single dots);
`".."` segments are kept.  Joining with an absolute child replaces the base
path, as `PurePath.__truediv__` does. -/

/-- Split a character list on `'/'` (keeping empty pieces). -/
def splitSlash : List Char → List (List Char)
  | [] => [[]]
  | c :: rest =>
    if c = '/' then [] :: splitSlash rest
    else
      match splitSlash rest with
      | [] => [[c]]
      | s :: ss => (c :: s) :: ss

/-- A path segment pathlib keeps: non-empty and not `"."`. -/
def goodSeg (s : List Char) : Bool :=
  if s = ([] : List Char) then false else if s = ['.'] then false else true

def startsSlash : List Char → Bool
  | [] => false
  | c :: _ => c = '/'

/-- A parsed path: absoluteness flag plus kept segments. -/
structure PyPath where
  absolute : Bool
  segs : List (List Char)
deriving DecidableEq

/-- Parse a path string. -/
def parsePath (s : List Char) : PyPath :=
  ⟨startsSlash s, (splitSlash s).filter goodSeg⟩

/-- The pathlib `/` operator, `path / child`: an absolute child replaces the
base path, otherwise its kept segments are appended. -/
def pathJoin (p : PyPath) (child : List Char) : PyPath :=
  if (parsePath child).absolute then parsePath child
  else ⟨p.absolute, p.segs ++ (parsePath child).segs⟩

/-- Join segments with `'/'`. -/
def joinSegs : List (List Char) → List Char
  | [] => []
  | [s] => s
  | s :: rest => s ++ '/' :: joinSegs rest

/-- `str()` of a path. -/
def renderPath (p : PyPath) : List Char :=
  if p.absolute then '/' :: joinSegs p.segs
  else if p.segs = [] then ['.'] else joinSegs p.segs

/-- Last element of a list with a default. -/
def lastD {α : Type} (d : α) : List α → α
  | [] => d
  | [a] => a
  | _ :: a :: l => lastD d (a :: l)

/-! ### Path lemmas -/

theorem splitSlash_ne_nil (l : List Char) : splitSlash l ≠ [] := by
  cases l with
  | nil => simp [splitSlash]
  | cons c rest =>
    by_cases h : c = '/'
    · simp [splitSlash, h]
    · simp only [splitSlash, if_neg h]
      cases splitSlash rest <;> simp

theorem splitSlash_no_slash (l : List Char) (h : '/' ∉ l) :
    splitSlash l = [l] := by
  induction l with
  | nil => rfl
  | cons c rest ih =>
    have hc : c ≠ '/' := fun he => h (he ▸ List.mem_cons_self c rest)
    have hr : '/' ∉ rest := fun hm => h (List.mem_cons_of_mem c hm)
    simp only [splitSlash, if_neg hc, ih hr]

theorem lastD_cons_cons {α : Type} (d : α) (a b : α) (l : List α) :
    lastD d (a :: b :: l) = lastD d (b :: l) := rfl

theorem lastD_cons_of_ne_nil {α : Type} (d : α) (a : α) (l : List α)
    (h : l ≠ []) : lastD d (a :: l) = lastD d l := by
  cases l with
  | nil => exact absurd rfl h
  | cons b t => rfl

theorem dropLast_cons_of_ne_nil {α : Type} (a : α) (l : List α) (h : l ≠ []) :
    (a :: l).dropLast = a :: l.dropLast := by
  cases l with
  | nil => exact absurd rfl h
  | cons b t => rfl

theorem splitSlash_cons_slash (rest : List Char) :
    splitSlash ('/' :: rest) = [] :: splitSlash rest := by
  simp [splitSlash]

theorem splitSlash_cons_ne (c : Char) (rest : List Char) (hc : c ≠ '/')
    (s : List Char) (ss : List (List Char)) (hs : splitSlash rest = s :: ss) :
    splitSlash (c :: rest) = (c :: s) :: ss := by
  simp only [splitSlash, if_neg hc, hs]

/-- Splitting `xs ++ t` where `t` is slash-free extends the last segment. -/
theorem splitSlash_append_no_slash (t : List Char) (ht : '/' ∉ t) :
    ∀ xs : List Char,
      splitSlash (xs ++ t) =
        (splitSlash xs).dropLast ++ [lastD [] (splitSlash xs) ++ t] := by
  intro xs
  induction xs with
  | nil =>
    simp [splitSlash_no_slash t ht, splitSlash, lastD]
  | cons c rest ih =>
    by_cases hc : c = '/'
    · subst hc
      rw [List.cons_append, splitSlash_cons_slash, splitSlash_cons_slash, ih]
      have hne := splitSlash_ne_nil rest
      rw [dropLast_cons_of_ne_nil _ _ hne, lastD_cons_of_ne_nil _ _ _ hne,
        List.cons_append]
    · cases hs : splitSlash rest with
      | nil => exact absurd hs (splitSlash_ne_nil rest)
      | cons s ss =>
        have hlhs : splitSlash (rest ++ t) =
            (s :: ss).dropLast ++ [lastD [] (s :: ss) ++ t] := by
          rw [ih, hs]
        rw [List.cons_append, splitSlash_cons_ne c rest hc s ss hs]
        cases ss with
        | nil =>
          rw [splitSlash_cons_ne c (rest ++ t) hc (s ++ t) [] (by simpa using hlhs)]
          simp [lastD]
        | cons s2 ss2 =>
          have hd : (s :: s2 :: ss2).dropLast ++ [lastD [] (s :: s2 :: ss2) ++ t] =
              s :: ((s2 :: ss2).dropLast ++ [lastD [] (s2 :: ss2) ++ t]) := by
            rw [dropLast_cons_of_ne_nil s (s2 :: ss2) (by simp),
              lastD_cons_of_ne_nil [] s (s2 :: ss2) (by simp), List.cons_append]
          rw [splitSlash_cons_ne c (rest ++ t) hc s
            ((s2 :: ss2).dropLast ++ [lastD [] (s2 :: ss2) ++ t]) (hlhs.trans hd)]
          rw [dropLast_cons_of_ne_nil (c :: s) (s2 :: ss2) (by simp),
            lastD_cons_of_ne_nil [] (c :: s) (s2 :: ss2) (by simp),
            List.cons_append]

/-- Re-joining the split of a string restores it. -/
theorem joinSegs_splitSlash (s : List Char) : joinSegs (splitSlash s) = s := by
  induction s with
  | nil => rfl
  | cons c rest ih =>
    by_cases hc : c = '/'
    · subst hc
      simp only [splitSlash, if_pos rfl]
      have hne := splitSlash_ne_nil rest
      cases hs : splitSlash rest with
      | nil => exact absurd hs hne
      | cons s ss =>
        rw [hs] at ih
        simp only [joinSegs]
        cases ss with
        | nil => simp_all [joinSegs]
        | cons s2 ss2 => simp_all [joinSegs]
    · simp only [splitSlash, if_neg hc]
      cases hs : splitSlash rest with
      | nil => exact absurd hs (splitSlash_ne_nil rest)
      | cons s ss =>
        rw [hs] at ih
        cases ss with
        | nil =>
          simp only [joinSegs] at ih
          simp [joinSegs, ih]
        | cons s2 ss2 =>
          simp only [joinSegs] at ih ⊢
          rw [← ih]
          simp

theorem joinSegs_cons_of_ne_nil (s : List Char) (rest : List (List Char))
    (h : rest ≠ []) : joinSegs (s :: rest) = s ++ '/' :: joinSegs rest := by
  cases rest with
  | nil => exact absurd rfl h
  | cons b t => rfl

theorem joinSegs_append (A B : List (List Char)) (hA : A ≠ []) (hB : B ≠ []) :
    joinSegs (A ++ B) = joinSegs A ++ '/' :: joinSegs B := by
  induction A with
  | nil => exact absurd rfl hA
  | cons a A' ih =>
    cases A' with
    | nil =>
      cases B with
      | nil => exact absurd rfl hB
      | cons b bs =>
        rw [List.singleton_append, joinSegs_cons_of_ne_nil a (b :: bs) (by simp)]
        rfl
    | cons a2 A2 =>
      rw [List.cons_append,
        joinSegs_cons_of_ne_nil a ((a2 :: A2) ++ B) (by simp),
        joinSegs_cons_of_ne_nil a (a2 :: A2) (by simp), ih (by simp)]
      simp [List.append_assoc]

/-- A non-empty segment list makes `joinSegs` end in its last segment. -/
theorem joinSegs_ends_with_last (A : List (List Char)) (x : List Char) :
    ∃ pre : List Char, joinSegs (A ++ [x]) = pre ++ x := by
  induction A with
  | nil => exact ⟨[], rfl⟩
  | cons a A' ih =>
    obtain ⟨pre, hp⟩ := ih
    refine ⟨a ++ '/' :: pre, ?_⟩
    rw [List.cons_append, joinSegs_cons_of_ne_nil a (A' ++ [x]) (by simp), hp]
    simp

/-! ## The exporter `save` (functions.py lines 284-305)

The filesystem is a state: a set of existing directories, an association
list of files (later writes shadow earlier ones, as an overwrite does), and
a set of paths the OS refuses to create or write (permission errors).
`fig.write_html(filepath, include_mathjax="cdn")` stores the figure with the
mathjax mode; the `LOG.info` line has no observable effect on the returned
value or the filesystem and is not modelled. -/

/-- Contents of a written file: the serialized figure plus the mathjax
inclusion mode (`include_mathjax="cdn"`). -/
inductive FileData where
  | html (fig : Figure) (mathjax : String)
deriving DecidableEq

/-- Filesystem errors, surfaced to the caller untranslated. -/
inductive FsError where
  | cannotCreate (p : PyPath)
  | cannotWrite (p : PyPath)
deriving DecidableEq

structure FS where
  dirs : List PyPath
  files : List (PyPath × FileData)
  forbidden : List PyPath
deriving DecidableEq

def emptyFS : FS := ⟨[], [], []⟩

/-- First (most recent) file entry at a path. -/
def lookupFile : List (PyPath × FileData) → PyPath → Option FileData
  | [], _ => none
  | (q, v) :: rest, p => if p = q then some v else lookupFile rest p

/-- `fig.write_html(filepath, ...)`: fails on a forbidden path, otherwise
records the file (shadowing any previous entry at the same path). -/
def writeFileFS (fs : FS) (p : PyPath) (d : FileData) : Except FsError FS :=
  if p ∈ fs.forbidden then .error (.cannotWrite p)
  else .ok { fs with files := (p, d) :: fs.files }

/-- Creates the missing prefixes of a path left to right, failing on a
forbidden one (`mkdir(parents=True, ...)`). -/
def mkdirAux (ab : Bool) : FS → List (List Char) → List (List Char) →
    Except FsError FS
  | fs, _, [] => .ok fs
  | fs, done, s :: rest =>
    let p : PyPath := ⟨ab, done ++ [s]⟩
    if p ∈ fs.dirs then mkdirAux ab fs (done ++ [s]) rest
    else if p ∈ fs.forbidden then .error (.cannotCreate p)
    else mkdirAux ab { fs with dirs := p :: fs.dirs } (done ++ [s]) rest

/-- `path.mkdir(parents=True, exist_ok=True)`: an existing target is
accepted immediately (`exist_ok`), otherwise the parents and the target are
created in order. -/
def mkdirParents (fs : FS) (p : PyPath) : Except FsError FS :=
  if p ∈ fs.dirs then .ok fs else mkdirAux p.absolute fs [] p.segs

/-- The `.html` extension. -/
def htmlExt : List Char := ['.', 'h', 't', 'm', 'l']

/-- The f-string `f"{name}_{timestamp}.html"`: the base name verbatim, an
underscore, the timestamp, the extension. -/
def childStr (name : List Char) (now : DateTime) : List Char :=
  name ++ '_' :: (fmtTimestamp now ++ htmlExt)

/-- `save(fig, name, path)` (functions.py lines 284-305): make the directory
(parents, exist_ok), build `path / f"{name}_{timestamp}.html"`, write the
figure as HTML with CDN mathjax, return the filepath.  `now` is the value
`datetime.now()` produced during the call. -/
def save (fig : Figure) (name : List Char) (path : PyPath) (fs : FS)
    (now : DateTime) : Except FsError (FS × PyPath) :=
  match mkdirParents fs path with
  | .error e => .error e
  | .ok fs1 =>
    match writeFileFS fs1 (pathJoin path (childStr name now))
        (FileData.html fig "cdn") with
    | .error e => .error e
    | .ok fs2 => .ok (fs2, pathJoin path (childStr name now))

/-! ### `mkdir` lemmas -/

/-- `mkdirAux` only adds directories. -/
theorem mkdirAux_mono (ab : Bool) :
    ∀ (rest done : List (List Char)) (fs fs' : FS),
      mkdirAux ab fs done rest = .ok fs' →
      (∀ d, d ∈ fs.dirs → d ∈ fs'.dirs) ∧ fs'.files = fs.files ∧
        fs'.forbidden = fs.forbidden := by
  intro rest
  induction rest with
  | nil =>
    intro done fs fs' h
    simp only [mkdirAux] at h
    cases h
    exact ⟨fun d hd => hd, rfl, rfl⟩
  | cons s rest' ih =>
    intro done fs fs' h
    simp only [mkdirAux] at h
    by_cases h1 : (⟨ab, done ++ [s]⟩ : PyPath) ∈ fs.dirs
    · rw [if_pos h1] at h
      exact ih (done ++ [s]) fs fs' h
    · rw [if_neg h1] at h
      by_cases h2 : (⟨ab, done ++ [s]⟩ : PyPath) ∈ fs.forbidden
      · rw [if_pos h2] at h
        cases h
      · rw [if_neg h2] at h
        obtain ⟨hm, hf, hb⟩ := ih (done ++ [s]) _ fs' h
        refine ⟨fun d hd => hm d (List.mem_cons_of_mem _ hd), hf, hb⟩

/-- On success, `mkdirAux` has created every prefix of the remaining
segments (extending `done`). -/
theorem mkdirAux_creates (ab : Bool) :
    ∀ (rest done : List (List Char)) (fs fs' : FS),
      mkdirAux ab fs done rest = .ok fs' →
      ∀ i, 1 ≤ i → i ≤ rest.length →
        (⟨ab, done ++ rest.take i⟩ : PyPath) ∈ fs'.dirs := by
  intro rest
  induction rest with
  | nil =>
    intro done fs fs' _ i h1 h2
    simp only [List.length_nil] at h2
    omega
  | cons s rest' ih =>
    intro done fs fs' h i h1 h2
    simp only [mkdirAux] at h
    rcases Nat.lt_or_ge i 2 with hi | hi
    · have : i = 1 := by omega
      subst this
      simp only [List.take_succ_cons, List.take_zero]
      by_cases h1' : (⟨ab, done ++ [s]⟩ : PyPath) ∈ fs.dirs
      · rw [if_pos h1'] at h
        exact (mkdirAux_mono ab rest' (done ++ [s]) fs fs' h).1 _ h1'
      · rw [if_neg h1'] at h
        by_cases h2' : (⟨ab, done ++ [s]⟩ : PyPath) ∈ fs.forbidden
        · rw [if_pos h2'] at h
          cases h
        · rw [if_neg h2'] at h
          exact (mkdirAux_mono ab rest' (done ++ [s]) _ fs' h).1 _
            (List.mem_cons_self _ _)
    · obtain ⟨j, hj⟩ : ∃ j, i = j + 1 := ⟨i - 1, by omega⟩
      subst hj
      have hstep : ∀ fsx, mkdirAux ab fsx (done ++ [s]) rest' = .ok fs' →
          (⟨ab, done ++ List.take (j + 1) (s :: rest')⟩ : PyPath) ∈ fs'.dirs := by
        intro fsx hx
        have := ih (done ++ [s]) fsx fs' hx j (by omega)
          (by simp at h2 ⊢; omega)
        simpa [List.take_succ_cons, List.append_assoc] using this
      by_cases h1' : (⟨ab, done ++ [s]⟩ : PyPath) ∈ fs.dirs
      · rw [if_pos h1'] at h
        exact hstep fs h
      · rw [if_neg h1'] at h
        by_cases h2' : (⟨ab, done ++ [s]⟩ : PyPath) ∈ fs.forbidden
        · rw [if_pos h2'] at h
          cases h
        · rw [if_neg h2'] at h
          exact hstep _ h

/-- C4: `save` first ensures the destination directory exists: on success of
the `mkdir(parents=True, exist_ok=True)` step every prefix of a
newly-created destination (parents included) exists; an already-existing
destination raises no error and changes nothing; and when the directory
cannot be created or the file cannot be written, `save` returns exactly the
underlying filesystem error, untranslated. -/
theorem save_mkdir_behavior :
    (∀ (fs : FS) (p : PyPath) (fs' : FS), p ∉ fs.dirs →
      mkdirParents fs p = .ok fs' →
      ∀ i, 1 ≤ i → i ≤ p.segs.length →
        (⟨p.absolute, p.segs.take i⟩ : PyPath) ∈ fs'.dirs) ∧
    (∀ (fs : FS) (p : PyPath), p ∈ fs.dirs → mkdirParents fs p = .ok fs) ∧
    (∀ (fig : Figure) (name : List Char) (path : PyPath) (fs : FS)
        (now : DateTime) (e : FsError),
      mkdirParents fs path = .error e →
      save fig name path fs now = .error e) ∧
    (∀ (fig : Figure) (name : List Char) (path : PyPath) (fs : FS)
        (now : DateTime) (fs1 : FS) (e : FsError),
      mkdirParents fs path = .ok fs1 →
      writeFileFS fs1 (pathJoin path (childStr name now))
        (FileData.html fig "cdn") = .error e →
      save fig name path fs now = .error e) := by
  refine ⟨?_, ?_, ?_, ?_⟩
  · intro fs p fs' hnp h i h1 h2
    unfold mkdirParents at h
    rw [if_neg hnp] at h
    simpa using mkdirAux_creates p.absolute p.segs [] fs fs' h i h1 h2
  · intro fs p hp
    unfold mkdirParents
    rw [if_pos hp]
  · intro fig name path fs now e h
    unfold save
    rw [h]
  · intro fig name path fs now fs1 e h hw
    unfold save
    rw [h]
    dsimp only
    rw [hw]

/-- Concrete directory `out` used in witnesses. -/
def dirW : PyPath := ⟨false, [['o', 'u', 't']]⟩

/-- A filesystem in which `dirW` already exists. -/
def fsDirW : FS := ⟨[dirW], [], []⟩

/-- A filesystem in which `dirW` cannot be created. -/
def fsBlockW : FS := ⟨[], [], [dirW]⟩

/-- A concrete clock instant used in witnesses. -/
def dtW : DateTime := ⟨2021, 1, 2, 3, 4, 5, 6⟩

/-- C4 witness: on concrete filesystems, creating `out` from scratch puts it
in the directory set, an existing `out` is accepted unchanged, and a
forbidden `out` makes `save` return the creation error itself. -/
theorem save_mkdir_behavior_witness :
    (⟨dirW.absolute, dirW.segs.take 1⟩ : PyPath) ∈ fsDirW.dirs ∧
    mkdirParents fsDirW dirW = .ok fsDirW ∧
    save emptyFigure [] dirW fsBlockW dtW =
      .error (.cannotCreate dirW) :=
  ⟨save_mkdir_behavior.1 emptyFS dirW fsDirW (by decide) rfl 1
      (by decide) (by decide),
   save_mkdir_behavior.2.1 fsDirW dirW (by decide),
   save_mkdir_behavior.2.2.1 emptyFigure [] dirW fsBlockW dtW
     (.cannotCreate dirW) rfl⟩

/-! ### The shape of the saved path -/

theorem digitCh_ne_slash (d : Nat) : digitCh d ≠ '/' := by
  have h2 : digitCh d = digitCh (d % 10) := by
    unfold digitCh; congr 1; omega
  have h3 : ∀ m, m < 10 → digitCh m ≠ '/' := by decide
  rw [h2]
  exact h3 _ (Nat.mod_lt _ (by omega))

theorem slash_not_mem_pad2 (n : Nat) : '/' ∉ pad2 n := by
  intro h
  simp only [pad2, List.mem_cons, List.not_mem_nil, or_false] at h
  rcases h with h | h <;> exact digitCh_ne_slash _ h.symm

theorem slash_not_mem_pad4 (n : Nat) : '/' ∉ pad4 n := by
  intro h
  simp only [pad4, List.mem_cons, List.not_mem_nil, or_false] at h
  rcases h with h | h | h | h <;> exact digitCh_ne_slash _ h.symm

theorem slash_not_mem_pad6 (n : Nat) : '/' ∉ pad6 n := by
  intro h
  simp only [pad6, List.mem_cons, List.not_mem_nil, or_false] at h
  rcases h with h | h | h | h | h | h <;> exact digitCh_ne_slash _ h.symm

theorem slash_not_mem_fmtTimestamp (dt : DateTime) : '/' ∉ fmtTimestamp dt := by
  rw [fmtTimestamp_eq]
  intro h
  simp only [List.mem_append, List.mem_cons] at h
  rcases h with h | h | h | h | h | h | h | h | h | h | h | h | h
  all_goals first
    | exact slash_not_mem_pad4 _ h
    | exact slash_not_mem_pad2 _ h
    | exact slash_not_mem_pad6 _ h
    | exact absurd h (by decide)

/-- The tail appended to the base name by the f-string is slash-free. -/
theorem slash_not_mem_tail (now : DateTime) :
    '/' ∉ ('_' :: (fmtTimestamp now ++ htmlExt)) := by
  intro h
  rcases List.mem_cons.mp h with h | h
  · exact absurd h (by decide)
  · rcases List.mem_append.mp h with h | h
    · exact slash_not_mem_fmtTimestamp now h
    · exact absurd h (by decide)

theorem goodSeg_of_long (s : List Char) (h : 2 ≤ s.length) :
    goodSeg s = true := by
  unfold goodSeg
  rw [if_neg, if_neg]
  · intro he; subst he; simp at h
  · intro he; subst he; simp at h

theorem lastD_concat {α : Type} (d x : α) (A : List α) :
    lastD d (A ++ [x]) = x := by
  induction A with
  | nil => rfl
  | cons a A' ih =>
    cases A' with
    | nil => rfl
    | cons a2 A2 =>
      simp only [List.cons_append]
      rw [lastD_cons_cons]
      exact ih

/-- Splitting the f-string's value isolates the timestamped tail in the last
segment. -/
theorem splitSlash_childStr (name : List Char) (now : DateTime) :
    splitSlash (childStr name now) =
      (splitSlash name).dropLast ++
        [lastD [] (splitSlash name) ++ '_' :: (fmtTimestamp now ++ htmlExt)] :=
  splitSlash_append_no_slash _ (slash_not_mem_tail now) name

theorem goodSeg_lastChild (name : List Char) (now : DateTime) :
    goodSeg (lastD [] (splitSlash name) ++
      '_' :: (fmtTimestamp now ++ htmlExt)) = true := by
  apply goodSeg_of_long
  simp [fmtTimestamp_length, htmlExt]

theorem parsePath_childStr_segs (name : List Char) (now : DateTime) :
    (parsePath (childStr name now)).segs =
      (splitSlash name).dropLast.filter goodSeg ++
        [lastD [] (splitSlash name) ++ '_' :: (fmtTimestamp now ++ htmlExt)] := by
  unfold parsePath
  rw [splitSlash_childStr, List.filter_append]
  simp [goodSeg_lastChild]

/-- The joined path's segments always end in the timestamped filename
segment. -/
theorem pathJoin_childStr_segs (dir : PyPath) (name : List Char)
    (now : DateTime) :
    ∃ A : List (List Char),
      (pathJoin dir (childStr name now)).segs =
        A ++ [lastD [] (splitSlash name) ++ '_' :: (fmtTimestamp now ++ htmlExt)] := by
  unfold pathJoin
  by_cases ha : (parsePath (childStr name now)).absolute
  · rw [if_pos ha]
    exact ⟨(splitSlash name).dropLast.filter goodSeg, parsePath_childStr_segs name now⟩
  · rw [if_neg ha]
    refine ⟨dir.segs ++ (splitSlash name).dropLast.filter goodSeg, ?_⟩
    simp only [parsePath_childStr_segs name now, List.append_assoc]

theorem renderPath_ends (ab : Bool) (A : List (List Char)) (x : List Char) :
    ∃ pre, renderPath ⟨ab, A ++ [x]⟩ = pre ++ x := by
  obtain ⟨pre, hp⟩ := joinSegs_ends_with_last A x
  unfold renderPath
  cases ab with
  | true =>
    rw [if_pos rfl]
    exact ⟨'/' :: pre, by simp [hp]⟩
  | false =>
    rw [if_neg (by simp)]
    rw [if_neg (by simp)]
    exact ⟨pre, hp⟩

theorem startsSlash_childStr (name : List Char) (now : DateTime)
    (h : '/' ∉ name) : startsSlash (childStr name now) = false := by
  cases name with
  | nil => rfl
  | cons c cs =>
    have hc : c ≠ '/' := fun he => h (he ▸ List.mem_cons_self c cs)
    simp [childStr, startsSlash, hc]

/-- C3 (amended): a successful `save` returns exactly the pathlib join of
the directory with the f-string `{name}_{timestamp}.html`, with the
timestamp in `YYYY-MM-DD_HH-MM-SS-ffffff` form (26 characters, microsecond
resolution), and writes the serialized figure at that very path; the
rendered path always ends in `.html`, and when the base name contains no
path separator the filename is exactly `{name}_{timestamp}.html`, which
starts with the base name. -/
theorem save_returns_timestamped_path (fig : Figure) (name : List Char)
    (dir : PyPath) (fs : FS) (now : DateTime) (fs' : FS) (p : PyPath)
    (h : save fig name dir fs now = .ok (fs', p)) :
    p = pathJoin dir (childStr name now) ∧
    lookupFile fs'.files p = some (FileData.html fig "cdn") ∧
    fmtTimestamp now =
      pad4 now.year ++ '-' :: (pad2 now.month ++ '-' :: (pad2 now.day ++
        '_' :: (pad2 now.hour ++ '-' :: (pad2 now.minute ++ '-' ::
          (pad2 now.second ++ '-' :: pad6 now.micro))))) ∧
    (fmtTimestamp now).length = 26 ∧
    (∃ pre, renderPath p = pre ++ htmlExt) ∧
    ('/' ∉ name →
      p.segs = dir.segs ++ [childStr name now] ∧
      lastD [] p.segs = childStr name now ∧
      (lastD [] p.segs).take name.length = name) := by
  unfold save at h
  cases hm : mkdirParents fs dir with
  | error e => rw [hm] at h; cases h
  | ok fs1 =>
    rw [hm] at h
    dsimp only at h
    cases hw : writeFileFS fs1 (pathJoin dir (childStr name now))
        (FileData.html fig "cdn") with
    | error e => rw [hw] at h; cases h
    | ok fs2 =>
      rw [hw] at h
      dsimp only at h
      cases h
      unfold writeFileFS at hw
      by_cases hf : pathJoin dir (childStr name now) ∈ fs1.forbidden
      · rw [if_pos hf] at hw; cases hw
      · rw [if_neg hf] at hw
        cases hw
        refine ⟨rfl, ?_, fmtTimestamp_eq now, fmtTimestamp_length now, ?_, ?_⟩
        · simp [lookupFile]
        · obtain ⟨A, hA⟩ := pathJoin_childStr_segs dir name now
          obtain ⟨pre, hpre⟩ := renderPath_ends
            (pathJoin dir (childStr name now)).absolute A
            (lastD [] (splitSlash name) ++ '_' :: (fmtTimestamp now ++ htmlExt))
          refine ⟨pre ++ (lastD [] (splitSlash name) ++ '_' :: fmtTimestamp now), ?_⟩
          have hp2 : (pathJoin dir (childStr name now)) =
              ⟨(pathJoin dir (childStr name now)).absolute,
                A ++ [lastD [] (splitSlash name) ++
                  '_' :: (fmtTimestamp now ++ htmlExt)]⟩ := by
            cases hpp : pathJoin dir (childStr name now)
            simp only at hA ⊢
            rw [hpp] at hA
            simp only at hA
            rw [hA]
          rw [hp2, hpre]
          simp [List.append_assoc]
        · intro hns
          have hsplit : splitSlash name = [name] := splitSlash_no_slash name hns
          have hseg : (pathJoin dir (childStr name now)).segs =
              dir.segs ++ [childStr name now] := by
            unfold pathJoin
            rw [if_neg]
            · simp only
              congr 1
              rw [parsePath_childStr_segs name now, hsplit]
              simp only [List.dropLast_single, List.filter_nil, List.nil_append,
                lastD]
              rfl
            · simp only [parsePath, startsSlash_childStr name now hns,
                Bool.false_eq_true, not_false_eq_true]
          refine ⟨hseg, ?_, ?_⟩
          · rw [hseg, lastD_concat]
          · rw [hseg, lastD_concat]
            unfold childStr
            exact List.take_left name ('_' :: (fmtTimestamp now ++ htmlExt))

/-- Shared helper: a successful `save` returns the joined path and has
written the figure there. -/
theorem save_ok_parts (fig : Figure) (name : List Char) (dir : PyPath)
    (fs : FS) (now : DateTime) (fs' : FS) (p : PyPath)
    (h : save fig name dir fs now = .ok (fs', p)) :
    p = pathJoin dir (childStr name now) ∧
    lookupFile fs'.files p = some (FileData.html fig "cdn") := by
  unfold save at h
  cases hm : mkdirParents fs dir with
  | error e => rw [hm] at h; cases h
  | ok fs1 =>
    rw [hm] at h
    dsimp only at h
    cases hw : writeFileFS fs1 (pathJoin dir (childStr name now))
        (FileData.html fig "cdn") with
    | error e => rw [hw] at h; cases h
    | ok fs2 =>
      rw [hw] at h
      dsimp only at h
      cases h
      unfold writeFileFS at hw
      by_cases hf : pathJoin dir (childStr name now) ∈ fs1.forbidden
      · rw [if_pos hf] at hw; cases hw
      · rw [if_neg hf] at hw
        cases hw
        exact ⟨rfl, by simp [lookupFile]⟩

/-- Concrete base name used in the C3 witness. -/
def nameW : List Char := ['i', 'm', 'g']

def saveResW : Except FsError (FS × PyPath) :=
  save emptyFigure nameW dirW emptyFS dtW

def fsW : FS := (saveResW.toOption.getD (emptyFS, dirW)).1

def pW : PyPath := (saveResW.toOption.getD (emptyFS, dirW)).2

/-- C3 witness: a concrete save of `img` into `out` lands at the joined
timestamped path, the file is there, and the filename starts with `img` and
ends in `.html`. -/
theorem save_returns_timestamped_path_witness :
    pW = pathJoin dirW (childStr nameW dtW) ∧
    lookupFile fsW.files pW = some (FileData.html emptyFigure "cdn") ∧
    (fmtTimestamp dtW).length = 26 ∧
    (∃ pre, renderPath pW = pre ++ htmlExt) ∧
    pW.segs = dirW.segs ++ [childStr nameW dtW] ∧
    (lastD [] pW.segs).take nameW.length = nameW :=
  have h := save_returns_timestamped_path emptyFigure nameW dirW emptyFS dtW
    fsW pW rfl
  ⟨h.1, h.2.1, h.2.2.2.1, h.2.2.2.2.1, (h.2.2.2.2.2 (by decide)).1,
    (h.2.2.2.2.2 (by decide)).2.2⟩

/-- Concrete base name containing a separator, for the C3 counterexample. -/
def nameC3 : List Char := ['a', '/', 'b']

def saveResC3 : Except FsError (FS × PyPath) :=
  save emptyFigure nameC3 dirW emptyFS dtW

def pC3 : PyPath := (saveResC3.toOption.getD (emptyFS, dirW)).2

/-- C3 counterexample: with base name `a/b`, the save succeeds but the
filename of the returned path is `b_<timestamp>.html`, which does not start
with the given base name — the claim's universally quantified parenthetical
fails. -/
theorem save_filename_prefix_counterexample :
    saveResC3.toOption ≠ none ∧
    (lastD [] pC3.segs).take nameC3.length ≠ nameC3 := by
  constructor
  · decide
  · decide

/-! ## C10: the base name is used verbatim -/

theorem parsePath_absolute (s : List Char) :
    (parsePath s).absolute = startsSlash s := rfl

theorem parsePath_segs (s : List Char) :
    (parsePath s).segs = (splitSlash s).filter goodSeg := rfl

/-- A base name whose split segments are all kept yields a relative
f-string value. -/
theorem childStr_relative (name : List Char) (now : DateTime)
    (hgood : ∀ s ∈ splitSlash name, goodSeg s = true) :
    startsSlash (childStr name now) = false := by
  cases name with
  | nil =>
    exact absurd (hgood [] (by simp [splitSlash])) (by decide)
  | cons c cs =>
    by_cases hc : c = '/'
    · subst hc
      have hmem : ([] : List Char) ∈ splitSlash ('/' :: cs) := by
        rw [splitSlash_cons_slash]
        exact List.mem_cons_self _ _
      exact absurd (hgood [] hmem) (by decide)
    · simp [childStr, startsSlash, hc]

/-- When every segment of the base name is kept, parsing the f-string value
keeps every segment. -/
theorem parsePath_childStr_all_good (name : List Char) (now : DateTime)
    (hgood : ∀ s ∈ splitSlash name, goodSeg s = true) :
    (parsePath (childStr name now)).segs = splitSlash (childStr name now) := by
  rw [parsePath_segs, List.filter_eq_self]
  intro a ha
  rw [splitSlash_childStr] at ha
  rcases List.mem_append.mp ha with ha | ha
  · exact hgood a ((List.dropLast_sublist (splitSlash name)).subset ha)
  · rw [List.mem_singleton.mp ha]
    exact goodSeg_lastChild name now

theorem splitSlash_length_ge_two (l : List Char) (h : '/' ∈ l) :
    2 ≤ (splitSlash l).length := by
  induction l with
  | nil => simp at h
  | cons c rest ih =>
    by_cases hc : c = '/'
    · subst hc
      rw [splitSlash_cons_slash]
      have := splitSlash_ne_nil rest
      cases hs : splitSlash rest with
      | nil => exact absurd hs this
      | cons s ss => simp
    · have hr : '/' ∈ rest := by
        rcases List.mem_cons.mp h with h | h
        · exact absurd h.symm hc
        · exact h
      cases hs : splitSlash rest with
      | nil => exact absurd hs (splitSlash_ne_nil rest)
      | cons s ss =>
        rw [splitSlash_cons_ne c rest hc s ss hs]
        have := ih hr
        rw [hs] at this
        simpa using this

/-- C10 (amended): `save` interpolates the base name verbatim into the
filename string `{name}_{timestamp}.html` and joins it to the directory with
pathlib semantics.  For a directory with at least one kept path segment
(i.e. not `"."` or `"/"`, whose renderings a join does not reproduce
byte-exactly) and a relative name with no empty or `"."` segments, the
rendered result is the byte-exact join `<dir>/<name>_<timestamp>.html`; and
a name containing a path separator places the file outside the given
destination directory (its containing directory differs from `dir`). -/
theorem save_uses_name_verbatim (fig : Figure) (name : List Char)
    (dir : PyPath) (fs : FS) (now : DateTime) (fs' : FS) (p : PyPath)
    (h : save fig name dir fs now = .ok (fs', p)) :
    p = pathJoin dir (childStr name now) ∧
    (dir.segs ≠ [] → (∀ s ∈ splitSlash name, goodSeg s = true) →
      renderPath p = renderPath dir ++ '/' :: childStr name now) ∧
    ('/' ∈ name → (∀ s ∈ splitSlash name, goodSeg s = true) →
      p.segs.dropLast ≠ dir.segs) := by
  obtain ⟨hp, -⟩ := save_ok_parts fig name dir fs now fs' p h
  subst hp
  refine ⟨rfl, ?_, ?_⟩
  · intro hdir hgood
    have hrel : ¬ (parsePath (childStr name now)).absolute = true := by
      rw [parsePath_absolute, childStr_relative name now hgood]
      simp
    have hjoin : pathJoin dir (childStr name now) =
        ⟨dir.absolute, dir.segs ++ splitSlash (childStr name now)⟩ := by
      unfold pathJoin
      rw [if_neg hrel, parsePath_childStr_all_good name now hgood]
    rw [hjoin]
    have hne : splitSlash (childStr name now) ≠ [] := splitSlash_ne_nil _
    have hjs : joinSegs (dir.segs ++ splitSlash (childStr name now)) =
        joinSegs dir.segs ++ '/' :: childStr name now := by
      rw [joinSegs_append _ _ hdir hne, joinSegs_splitSlash]
    unfold renderPath
    by_cases hab : dir.absolute = true
    · rw [if_pos hab, if_pos hab, hjs]
      simp
    · rw [if_neg hab, if_neg hab, if_neg hdir,
        if_neg (by simp [hdir]), hjs]
  · intro hsl hgood
    have hrel : ¬ (parsePath (childStr name now)).absolute = true := by
      rw [parsePath_absolute, childStr_relative name now hgood]
      simp
    have hsegs : (pathJoin dir (childStr name now)).segs =
        (dir.segs ++ (splitSlash name).dropLast) ++
          [lastD [] (splitSlash name) ++ '_' :: (fmtTimestamp now ++ htmlExt)] := by
      unfold pathJoin
      rw [if_neg hrel]
      simp only
      rw [parsePath_childStr_all_good name now hgood, splitSlash_childStr,
        List.append_assoc]
    rw [hsegs, List.dropLast_concat]
    have hlen : 2 ≤ (splitSlash name).length := splitSlash_length_ge_two name hsl
    intro heq
    have := congrArg List.length heq
    simp only [List.length_append, List.length_dropLast] at this
    omega

/-- Concrete base name with a separator (all segments kept), for the C10
witness. -/
def nameC10W : List Char := ['s', 'u', 'b', '/', 'f']

def saveResC10W : Except FsError (FS × PyPath) :=
  save emptyFigure nameC10W dirW emptyFS dtW

def fsC10W : FS := (saveResC10W.toOption.getD (emptyFS, dirW)).1

def pC10W : PyPath := (saveResC10W.toOption.getD (emptyFS, dirW)).2

/-- C10 witness: saving with base name `sub/f` into `out` returns the
pathlib join, renders as the byte-exact join, and the file's containing
directory is not `out`. -/
theorem save_uses_name_verbatim_witness :
    pC10W = pathJoin dirW (childStr nameC10W dtW) ∧
    renderPath pC10W = renderPath dirW ++ '/' :: childStr nameC10W dtW ∧
    pC10W.segs.dropLast ≠ dirW.segs :=
  have h := save_uses_name_verbatim emptyFigure nameC10W dirW emptyFS dtW
    fsC10W pC10W rfl
  ⟨h.1, h.2.1 (by decide) (by decide), h.2.2 (by decide) (by decide)⟩

/-- Concrete base name starting with a `.` segment, for the C10
counterexample. -/
def nameC10 : List Char := ['.', '/', 'a']

def saveResC10 : Except FsError (FS × PyPath) :=
  save emptyFigure nameC10 dirW emptyFS dtW

def pC10 : PyPath := (saveResC10.toOption.getD (emptyFS, dirW)).2

/-- C10 counterexample: with base name `./a`, pathlib collapses the `.`
segment, so the returned path renders as `out/a_<ts>.html`, not the
byte-exact join `out/./a_<ts>.html` — the claim's byte-exact universality
fails. -/
theorem save_byte_exact_join_counterexample :
    saveResC10.toOption ≠ none ∧
    renderPath pC10 ≠ renderPath dirW ++ '/' :: childStr nameC10 dtW := by
  constructor
  · decide
  · decide

/-! ## C5: sequential saves with distinct timestamps -/

theorem mkdirAux_ok_of_no_forbidden (ab : Bool) :
    ∀ (rest done : List (List Char)) (fs : FS), fs.forbidden = [] →
      ∃ fs', mkdirAux ab fs done rest = .ok fs' := by
  intro rest
  induction rest with
  | nil =>
    intro done fs _
    exact ⟨fs, rfl⟩
  | cons s rest' ih =>
    intro done fs hf
    simp only [mkdirAux]
    by_cases h1 : (⟨ab, done ++ [s]⟩ : PyPath) ∈ fs.dirs
    · rw [if_pos h1]
      exact ih (done ++ [s]) fs hf
    · rw [if_neg h1]
      have h2 : (⟨ab, done ++ [s]⟩ : PyPath) ∉ fs.forbidden := by
        rw [hf]; simp
      rw [if_neg h2]
      exact ih (done ++ [s]) _ hf

theorem mkdirParents_ok_of_no_forbidden (fs : FS) (p : PyPath)
    (hf : fs.forbidden = []) :
    ∃ fs', mkdirParents fs p = .ok fs' ∧ fs'.files = fs.files ∧
      fs'.forbidden = [] := by
  unfold mkdirParents
  by_cases hp : p ∈ fs.dirs
  · rw [if_pos hp]
    exact ⟨fs, rfl, rfl, hf⟩
  · rw [if_neg hp]
    obtain ⟨fs', h⟩ := mkdirAux_ok_of_no_forbidden p.absolute p.segs [] fs hf
    obtain ⟨-, hfiles, hforb⟩ := mkdirAux_mono p.absolute p.segs [] fs fs' h
    exact ⟨fs', h, hfiles, hforb.trans hf⟩

/-- On a filesystem with no forbidden paths, `save` succeeds and prepends
exactly one file entry. -/
theorem save_ok_of_no_forbidden (fig : Figure) (name : List Char)
    (dir : PyPath) (fs : FS) (now : DateTime) (hf : fs.forbidden = []) :
    ∃ fs', save fig name dir fs now =
        .ok (fs', pathJoin dir (childStr name now)) ∧
      fs'.files = (pathJoin dir (childStr name now), FileData.html fig "cdn")
        :: fs.files ∧
      fs'.forbidden = [] := by
  obtain ⟨fs1, h1, hfiles, hforb⟩ := mkdirParents_ok_of_no_forbidden fs dir hf
  have hw : writeFileFS fs1 (pathJoin dir (childStr name now))
      (FileData.html fig "cdn") =
      .ok { fs1 with files := (pathJoin dir (childStr name now),
        FileData.html fig "cdn") :: fs1.files } := by
    unfold writeFileFS
    rw [if_neg (by rw [hforb]; simp)]
  refine ⟨{ fs1 with files := (pathJoin dir (childStr name now),
      FileData.html fig "cdn") :: fs1.files }, ?_, by simp [hfiles], by simp [hforb]⟩
  unfold save
  rw [h1]
  dsimp only
  rw [hw]

/-- Distinct timestamps give distinct joined paths, whatever the base name
and directory. -/
theorem save_paths_differ (name : List Char) (dir : PyPath)
    (dt1 dt2 : DateTime) (h1 : validDT dt1) (h2 : validDT dt2)
    (hne : dt1 ≠ dt2) :
    pathJoin dir (childStr name dt1) ≠ pathJoin dir (childStr name dt2) := by
  have hfmt : fmtTimestamp dt1 ≠ fmtTimestamp dt2 :=
    fun he => hne (fmtTimestamp_injOn dt1 dt2 h1 h2 he)
  have hL : lastD [] (splitSlash name) ++ '_' :: (fmtTimestamp dt1 ++ htmlExt) ≠
      lastD [] (splitSlash name) ++ '_' :: (fmtTimestamp dt2 ++ htmlExt) := by
    intro he
    apply hfmt
    have h3 := List.append_cancel_left he
    injection h3 with hhd h4
    exact List.append_cancel_right h4
  have habs : startsSlash (childStr name dt1) = startsSlash (childStr name dt2) := by
    cases name <;> rfl
  intro he
  unfold pathJoin at he
  by_cases hb : (parsePath (childStr name dt1)).absolute = true
  · have hb2 : (parsePath (childStr name dt2)).absolute = true := by
      rw [parsePath_absolute] at hb ⊢
      rw [← habs]
      exact hb
    rw [if_pos hb, if_pos hb2] at he
    have hsegs := congrArg PyPath.segs he
    rw [parsePath_childStr_segs name dt1, parsePath_childStr_segs name dt2] at hsegs
    have := List.append_cancel_left hsegs
    simp only [List.cons.injEq, and_true] at this
    exact hL this
  · have hb2 : ¬ (parsePath (childStr name dt2)).absolute = true := by
      rw [parsePath_absolute] at hb ⊢
      rw [← habs]
      exact hb
    rw [if_neg hb, if_neg hb2] at he
    have hsegs : dir.segs ++ (parsePath (childStr name dt1)).segs =
        dir.segs ++ (parsePath (childStr name dt2)).segs := by
      have := congrArg PyPath.segs he
      simpa using this
    have h5 := List.append_cancel_left hsegs
    rw [parsePath_childStr_segs name dt1, parsePath_childStr_segs name dt2] at h5
    have := List.append_cancel_left h5
    simp only [List.cons.injEq, and_true] at this
    exact hL this

/-- C5: two sequential saves with the same base name and directory succeed;
with distinct clock instants the returned paths are distinct and both files
are present afterwards (neither overwrote the other), while within the same
microsecond the paths coincide and the second save silently overwrites the
first. -/
theorem save_twice_distinct (fig1 fig2 : Figure) (name : List Char)
    (dir : PyPath) (fs : FS) (dt1 dt2 : DateTime) (hf : fs.forbidden = [])
    (h1 : validDT dt1) (h2 : validDT dt2) :
    ∃ fs1 fs2 : FS,
      save fig1 name dir fs dt1 = .ok (fs1, pathJoin dir (childStr name dt1)) ∧
      save fig2 name dir fs1 dt2 = .ok (fs2, pathJoin dir (childStr name dt2)) ∧
      (dt1 ≠ dt2 →
        pathJoin dir (childStr name dt1) ≠ pathJoin dir (childStr name dt2) ∧
        lookupFile fs2.files (pathJoin dir (childStr name dt1)) =
          some (FileData.html fig1 "cdn") ∧
        lookupFile fs2.files (pathJoin dir (childStr name dt2)) =
          some (FileData.html fig2 "cdn")) ∧
      (dt1 = dt2 →
        pathJoin dir (childStr name dt1) = pathJoin dir (childStr name dt2) ∧
        lookupFile fs2.files (pathJoin dir (childStr name dt1)) =
          some (FileData.html fig2 "cdn")) := by
  obtain ⟨fs1, hs1, hfiles1, hforb1⟩ :=
    save_ok_of_no_forbidden fig1 name dir fs dt1 hf
  obtain ⟨fs2, hs2, hfiles2, hforb2⟩ :=
    save_ok_of_no_forbidden fig2 name dir fs1 dt2 hforb1
  refine ⟨fs1, fs2, hs1, hs2, ?_, ?_⟩
  · intro hne
    have hpne := save_paths_differ name dir dt1 dt2 h1 h2 hne
    refine ⟨hpne, ?_, ?_⟩
    · rw [hfiles2, hfiles1]
      simp only [lookupFile]
      rw [if_neg hpne]
      simp
    · rw [hfiles2]
      simp only [lookupFile]
      simp
  · intro heq
    subst heq
    refine ⟨rfl, ?_⟩
    rw [hfiles2]
    simp only [lookupFile]
    simp

/-- A second concrete clock instant, one microsecond after `dtW`. -/
def dtW2 : DateTime := ⟨2021, 1, 2, 3, 4, 5, 7⟩

/-- C5 witness: the two-saves theorem instantiated at concrete figures,
name, directory, empty filesystem and two instants differing by one
microsecond. -/
theorem save_twice_distinct_witness :
    ∃ fs1 fs2 : FS,
      save emptyFigure nameW dirW emptyFS dtW =
        .ok (fs1, pathJoin dirW (childStr nameW dtW)) ∧
      save (styleTransform emptyFigure) nameW dirW fs1 dtW2 =
        .ok (fs2, pathJoin dirW (childStr nameW dtW2)) ∧
      (dtW ≠ dtW2 →
        pathJoin dirW (childStr nameW dtW) ≠ pathJoin dirW (childStr nameW dtW2) ∧
        lookupFile fs2.files (pathJoin dirW (childStr nameW dtW)) =
          some (FileData.html emptyFigure "cdn") ∧
        lookupFile fs2.files (pathJoin dirW (childStr nameW dtW2)) =
          some (FileData.html (styleTransform emptyFigure) "cdn")) ∧
      (dtW = dtW2 →
        pathJoin dirW (childStr nameW dtW) = pathJoin dirW (childStr nameW dtW2) ∧
        lookupFile fs2.files (pathJoin dirW (childStr nameW dtW)) =
          some (FileData.html (styleTransform emptyFigure) "cdn")) :=
  save_twice_distinct emptyFigure (styleTransform emptyFigure) nameW dirW
    emptyFS dtW dtW2 rfl (by decide) (by decide)

/-! ## C8: the broadcast helper (spec-modelled)

The tests call `plot.libs.utillib.orient_and_broadcast`, but `plot/libs` is
not among the sources; the helper is therefore modelled from the spec.
Arrays are dense row-major buffers indexed by multi-indices. -/

def prodShape : List Nat → Nat
  | [] => 1
  | n :: rest => n * prodShape rest

/-- Concatenated images of `f` over an index list. -/
def catMaps {α : Type} (f : Nat → List α) : List Nat → List α
  | [] => []
  | i :: is => f i ++ catMaps f is

/-- All multi-indices of a shape, in row-major order. -/
def allIndices : List Nat → List (List Nat)
  | [] => [[]]
  | n :: rest =>
    catMaps (fun i => (allIndices rest).map (fun idx => i :: idx)) (List.range n)

/-- Row-major flattening of a multi-index. -/
def flattenIdx : List Nat → List Nat → Nat
  | _, [] => 0
  | [], _ => 0
  | _ :: rest, i :: idx => i * prodShape rest + flattenIdx rest idx

/-- Pointwise bound check of a multi-index against a shape. -/
def validIdx : List Nat → List Nat → Bool
  | [], [] => true
  | n :: shape, i :: idx => decide (i < n) && validIdx shape idx
  | _, _ => false

/-- A dense multi-dimensional array: shape plus row-major data. -/
structure NDArray where
  shape : List Nat
  data : List ℚ
deriving DecidableEq

/-- Element at a multi-index. -/
def NDArray.get (arr : NDArray) (idx : List Nat) : ℚ :=
  arr.data.getD (flattenIdx arr.shape idx) 0

inductive BroadcastError where
  | shapeMismatch
deriving DecidableEq

/-- Modelled from the spec: the broadcast helper
`plot.libs.utillib.orient_and_broadcast` called by the tests is code of this
repository that is not under `src/` (only `src/plot/functions.py` and the
tests are present).  Per spec section 4.1 it takes a 1-D sequence `a`, an
axis index `dim` and a target shape, fails with a shape-mismatch error when
`len(a) != shape[dim]`, and otherwise produces an array of the requested
shape whose values vary only along axis `dim`, replicated across all other
axes. -/
def orient_and_broadcast (a : List ℚ) (dim : Nat) (shape : List Nat) :
    Except BroadcastError NDArray :=
  if a.length = shape.getD dim 0 then
    .ok ⟨shape, (allIndices shape).map (fun idx => a.getD (idx.getD dim 0) 0)⟩
  else .error .shapeMismatch

/-! ### Indexing lemmas -/

theorem getD_append_right_off {α : Type} (A B : List α) (d : α) (k : Nat) :
    (A ++ B).getD (A.length + k) d = B.getD k d := by
  simp [List.getD, List.getElem?_append_right (Nat.le_add_right A.length k)]

theorem catMaps_length_const {α : Type} (f : Nat → List α) (P : Nat)
    (hf : ∀ j, (f j).length = P) :
    ∀ l : List Nat, (catMaps f l).length = l.length * P := by
  intro l
  induction l with
  | nil => simp [catMaps]
  | cons i is ih =>
    simp only [catMaps, List.length_append, List.length_cons, hf, ih]
    ring

theorem catMaps_append {α : Type} (f : Nat → List α) (A B : List Nat) :
    catMaps f (A ++ B) = catMaps f A ++ catMaps f B := by
  induction A with
  | nil => rfl
  | cons i is ih => simp [catMaps, ih]

theorem getD_catMaps_range {α : Type} (f : Nat → List α) (P : Nat)
    (hf : ∀ j, (f j).length = P) (d : α) :
    ∀ n i k, i < n → k < P →
      (catMaps f (List.range n)).getD (i * P + k) d = (f i).getD k d := by
  intro n
  induction n with
  | zero => intro i k hi _; omega
  | succ n ih =>
    intro i k hi hk
    rw [List.range_succ, catMaps_append]
    rcases Nat.lt_or_ge i n with hin | hin
    · rw [getD_append_left _ _ _ _ ?_]
      · exact ih i k hin hk
      · rw [catMaps_length_const f P hf]
        simp only [List.length_range]
        calc i * P + k < i * P + P := by omega
        _ = (i + 1) * P := by ring
        _ ≤ n * P := Nat.mul_le_mul_right P (by omega)
    · have hieq : i = n := by omega
      subst hieq
      have hlen : (catMaps f (List.range i)).length = i * P := by
        rw [catMaps_length_const f P hf]
        simp
      rw [← hlen, getD_append_right_off]
      simp [catMaps]

theorem allIndices_length (shape : List Nat) :
    (allIndices shape).length = prodShape shape := by
  induction shape with
  | nil => rfl
  | cons n rest ih =>
    simp only [allIndices, prodShape]
    rw [catMaps_length_const _ (prodShape rest)]
    · simp
    · intro j
      simp [ih]

theorem validIdx_length (shape idx : List Nat)
    (h : validIdx shape idx = true) : idx.length = shape.length := by
  induction shape generalizing idx with
  | nil =>
    cases idx with
    | nil => rfl
    | cons i is => simp [validIdx] at h
  | cons n rest ih =>
    cases idx with
    | nil => simp [validIdx] at h
    | cons i is =>
      simp only [validIdx, Bool.and_eq_true] at h
      simp [ih is h.2]

theorem flattenIdx_lt (shape idx : List Nat)
    (h : validIdx shape idx = true) :
    flattenIdx shape idx < prodShape shape := by
  induction shape generalizing idx with
  | nil =>
    cases idx with
    | nil => simp [flattenIdx, prodShape]
    | cons i is => simp [validIdx] at h
  | cons n rest ih =>
    cases idx with
    | nil => simp [validIdx] at h
    | cons i is =>
      simp only [validIdx, Bool.and_eq_true, decide_eq_true_eq] at h
      have h1 := ih is h.2
      simp only [flattenIdx, prodShape]
      calc i * prodShape rest + flattenIdx rest is
          < i * prodShape rest + prodShape rest := by omega
        _ = (i + 1) * prodShape rest := by ring
        _ ≤ n * prodShape rest := Nat.mul_le_mul_right _ (by omega)

theorem getD_map_lt {α β : Type} (l : List α) (g : α → β) (k : Nat)
    (d : α) (d' : β) (hk : k < l.length) :
    (l.map g).getD k d' = g (l.getD k d) := by
  simp [List.getD, List.getElem?_map, List.getElem?_eq_getElem hk]

/-- Row-major enumeration and flattening are inverse on valid indices. -/
theorem allIndices_getD_flattenIdx (shape idx : List Nat)
    (h : validIdx shape idx = true) :
    (allIndices shape).getD (flattenIdx shape idx) [] = idx := by
  induction shape generalizing idx with
  | nil =>
    cases idx with
    | nil => rfl
    | cons i is => simp [validIdx] at h
  | cons n rest ih =>
    cases idx with
    | nil => simp [validIdx] at h
    | cons i is =>
      simp only [validIdx, Bool.and_eq_true, decide_eq_true_eq] at h
      simp only [allIndices, flattenIdx]
      rw [getD_catMaps_range _ (prodShape rest) (fun j => by simp [allIndices_length])
        [] n i (flattenIdx rest is) h.1 (flattenIdx_lt rest is h.2)]
      rw [getD_map_lt _ _ _ [] _ (by rw [allIndices_length]; exact flattenIdx_lt rest is h.2)]
      rw [ih is h.2]

theorem validIdx_set (shape idx : List Nat) (dim j : Nat)
    (h : validIdx shape idx = true) (hj : j < shape.getD dim 0)
    (hdim : dim < shape.length) :
    validIdx shape (idx.set dim j) = true := by
  induction shape generalizing idx dim with
  | nil => simp at hdim
  | cons n rest ih =>
    cases idx with
    | nil => simp [validIdx] at h
    | cons i is =>
      simp only [validIdx, Bool.and_eq_true, decide_eq_true_eq] at h
      cases dim with
      | zero =>
        simp only [List.getD] at hj
        simp only [List.set]
        simp [validIdx, h.2]
        simpa using hj
      | succ d =>
        simp only [List.set, validIdx, Bool.and_eq_true, decide_eq_true_eq]
        refine ⟨h.1, ih is d h.2 ?_ (by simpa using hdim)⟩
        simpa [List.getD] using hj

theorem getD_set_self_nat (idx : List Nat) (dim j : Nat)
    (h : dim < idx.length) : (idx.set dim j).getD dim 0 = j := by
  induction idx generalizing dim with
  | nil => simp at h
  | cons i is ih =>
    cases dim with
    | zero => rfl
    | succ d =>
      simp only [List.set]
      simpa [List.getD] using ih d (by simpa using h)

/-- C8 (spec-modelled): the broadcast helper fails with a shape-mismatch
error exactly when `len(a) != shape[dim]`; otherwise it returns an array
whose shape is the requested shape and in which, for every valid
multi-index, replacing the coordinate along `dim` by any `j` reads back
`a[j]` — slicing along every axis other than `dim` at any fixed index
reproduces the input sequence exactly. -/
theorem orient_and_broadcast_spec (a : List ℚ) (dim : Nat)
    (shape : List Nat) (hdim : dim < shape.length) :
    (a.length ≠ shape.getD dim 0 →
      orient_and_broadcast a dim shape = .error .shapeMismatch) ∧
    (a.length = shape.getD dim 0 →
      ∃ arr, orient_and_broadcast a dim shape = .ok arr ∧
        arr.shape = shape ∧ arr.data.length = prodShape shape ∧
        ∀ idx j, validIdx shape idx = true → j < shape.getD dim 0 →
          arr.get (idx.set dim j) = a.getD j 0) := by
  constructor
  · intro hne
    unfold orient_and_broadcast
    rw [if_neg hne]
  · intro heq
    unfold orient_and_broadcast
    rw [if_pos heq]
    refine ⟨_, rfl, rfl, by simp [allIndices_length], ?_⟩
    intro idx j hv hj
    have hv2 : validIdx shape (idx.set dim j) = true :=
      validIdx_set shape idx dim j hv hj hdim
    have hflt : flattenIdx shape (idx.set dim j) < prodShape shape :=
      flattenIdx_lt shape _ hv2
    unfold NDArray.get
    simp only
    rw [getD_map_lt _ _ _ [] _ (by rw [allIndices_length]; exact hflt)]
    rw [allIndices_getD_flattenIdx shape _ hv2]
    rw [getD_set_self_nat idx dim j
      (by rw [validIdx_length shape idx hv]; exact hdim)]

/-- C8 witness: on shape `[3,2]` with axis 1, a length-3 input is rejected
with a shape mismatch, and a length-2 input broadcasts to a 3x2 array whose
rows all equal the input. -/
theorem orient_and_broadcast_spec_witness :
    orient_and_broadcast [(1 : ℚ), 2, 3] 1 [3, 2] = .error .shapeMismatch ∧
    (∃ arr, orient_and_broadcast [(1 : ℚ), 2] 1 [3, 2] = .ok arr ∧
      arr.shape = [3, 2] ∧ arr.data.length = prodShape [3, 2] ∧
      ∀ idx j, validIdx [3, 2] idx = true → j < ([3, 2] : List Nat).getD 1 0 →
        arr.get (idx.set 1 j) = ([(1 : ℚ), 2]).getD j 0) :=
  ⟨(orient_and_broadcast_spec [(1 : ℚ), 2, 3] 1 [3, 2] (by decide)).1 (by decide),
   (orient_and_broadcast_spec [(1 : ℚ), 2] 1 [3, 2] (by decide)).2 (by decide)⟩
